import Mathlib

/-!
Verification development for the dasch-science-lambda query endpoints.

The Rust sources are shallowly embedded as Lean definitions:

* Finite `f64` values are modelled as exact rationals (`ℚ`).  All claims
  checked here are robust to rounding: they are range-membership, control-flow
  and zeroing properties whose truth does not depend on the low-order bits of
  any floating-point value.  NaN matters for the binning layer, so floats
  there are modelled by the type `F` below, which is either a finite rational
  or NaN, with IEEE comparison semantics (every ordered comparison involving
  NaN is false), NaN-propagating arithmetic, and the Rust saturating
  `as usize` cast (NaN and negative values go to 0, huge values clamp).
* Transcendental library calls (`f64::cos`) are not finitely computable; the
  functions that consume their results take the cosine values as inputs.
* Rust panics and fallible operations are modelled with `Option` (`none` is a
  panic or an error return).
* `Vec`/`ndarray` buffers indexed by `usize` are modelled as functions
  `ℕ → _` together with explicit index lists; all writes performed by the
  embedded code are at indices below the buffer length.
-/

/-- Model of an `f64` value: a finite value (treated as an exact rational) or
NaN.  Infinities do not arise in the embedded code paths (the only divisions
are by nonzero constants or guarded values), so division by zero is mapped to
NaN here. -/
inductive F where
  | fin : ℚ → F
  | nan : F
deriving DecidableEq

/-- `f64` addition: exact on finite values, NaN-propagating. -/
def F.add : F → F → F
  | F.fin a, F.fin b => F.fin (a + b)
  | _, _ => F.nan

/-- `f64` multiplication: exact on finite values, NaN-propagating. -/
def F.mul : F → F → F
  | F.fin a, F.fin b => F.fin (a * b)
  | _, _ => F.nan

/-- `f64` division: exact on finite values (division by zero does not occur in
the embedded call sites; it is mapped to NaN), NaN-propagating. -/
def F.div : F → F → F
  | F.fin a, F.fin b => if b = 0 then F.nan else F.fin (a / b)
  | _, _ => F.nan

/-- `f64` `<`: false whenever either operand is NaN (IEEE semantics). -/
def F.blt : F → F → Bool
  | F.fin a, F.fin b => decide (a < b)
  | _, _ => false

/-- Rust `f64 as usize`: truncation toward zero with saturation.  Negative
values and NaN go to 0; values at or above `2^64` clamp to `2^64 - 1`. -/
def F.toUsize : F → ℕ
  | F.fin q => min (2 ^ 64 - 1) (Int.toNat ⌊q⌋)
  | F.nan => 0

/-! ## SkyBinning (`src/gscbin.rs`)

`GscBinning::new_generic` computes the per-band RA-bin count as
`(360/bin_size * cos((dec + bin_size/2) * D2R)) as usize`.  The cosine is a
transcendental library call, so the construction is embedded parameterized by
the per-band count function `f`; the running `ra_sum` of the loop is the prefix sum
of `f`. -/

structure GscBinIndex where
  start_bin : ℕ
  num_bins : ℕ
deriving DecidableEq

structure GscBinning where
  bin_size : ℚ
  dec_bins : ℕ
  master_index : List GscBinIndex
deriving DecidableEq

/-- Running `ra_sum` after `n` iterations of the construction loop. -/
def raSum (f : ℕ → ℕ) (n : ℕ) : ℕ := ∑ j in Finset.range n, f j

/-- The `master_index` vector built by the construction loop: entry `i` holds
the prefix sum of the counts before it and its own count. -/
def buildMasterIndex (f : ℕ → ℕ) (db : ℕ) : List GscBinIndex :=
  (List.range db).map (fun i => { start_bin := raSum f i, num_bins := f i })

/-- `GscBinning::new_generic`, parameterized by the per-band RA-bin count
function `f` (the value of the cosine-based count expression for each band).
Returns `none` when the final `ra_sum` differs from the expected total (the
source panics with "consistency error in GSC bin definition"). -/
def new_generic (f : ℕ → ℕ) (bs : ℚ) (db total : ℕ) : Option GscBinning :=
  if raSum f db = total then
    some { bin_size := bs, dec_bins := db, master_index := buildMasterIndex f db }
  else
    none

/-- `GscBinning::get_dec_bin`.  The source panics on `dec < -90. || dec > 90.`
(modelled as `none`); otherwise it computes `((dec + 90.) / self.bin_size) as
usize` and clamps the result down by one when it equals `dec_bins`. -/
def GscBinning.get_dec_bin (b : GscBinning) (dec : F) : Option ℕ :=
  if dec.blt (F.fin (-90)) || (F.fin 90).blt dec then
    none
  else
    let bin := ((dec.add (F.fin 90)).div (F.fin b.bin_size)).toUsize
    if bin = b.dec_bins then some (bin - 1) else some bin

/-- The RA-normalization loops of `GscBinning::get_total_bin` (`while ra < 0.
{ ra += 360. }` then `while ra >= 360. { ra -= 360. }`): on a finite value the
loops add or subtract whole multiples of 360 until the value lies in
`[0, 360)`, which in exact arithmetic is `ra - 360*⌊ra/360⌋`; on NaN both loop
conditions are false and the value is unchanged. -/
def normRa : F → F
  | F.fin q => F.fin (q - 360 * (⌊q / 360⌋ : ℤ))
  | F.nan => F.nan

/-- `GscBinning::get_total_bin`.  Indexing `master_index[dec_bin]` is modelled
with a default entry; every embedded call site passes `dec_bin <
master_index.length`.  `num_bins - 1` is `ℕ` subtraction; the source would
underflow `usize` there when `num_bins = 0`, which cannot happen for a real
binning (every band has at least one RA bin). -/
def GscBinning.get_total_bin (b : GscBinning) (dec_bin : ℕ) (ra : F) : ℕ :=
  let ra' := normRa ra
  let bin_info := b.master_index.getD dec_bin { start_bin := 0, num_bins := 0 }
  let delta_bin := ((ra'.mul (F.fin (bin_info.num_bins : ℚ))).div (F.fin 360)).toUsize
  let delta_bin := if bin_info.num_bins ≤ delta_bin then bin_info.num_bins - 1 else delta_bin
  bin_info.start_bin + delta_bin

/-! ## RefnumCodec (`src/refnums.rs`) -/

/-- Rust `str::split_at(mid)`: panics (modelled as `none`) when `mid` is past
the end of the string.  The strings handled by the refnum codec are ASCII
decimal digits, so byte indices and character indices coincide. -/
def strSplitAt (mid : ℕ) (s : List Char) : Option (List Char × List Char) :=
  if mid ≤ s.length then some (s.take mid, s.drop mid) else none

/-- Body of `refnum_to_text` after the `refnum == 0` early return, dispatching
on the decimal digit string of the input. -/
def refnumFromText (text : List Char) : Option String :=
  match strSplitAt 1 text with
  | none => none
  | some (code, rest) =>
    if code = ['1'] then
      -- Guide Star Catalog (GSC)
      match strSplitAt 1 rest with
      | none => none
      | some (front, back) =>
        if front = ['1'] then some (String.mk ('N' :: back))
        else if front = ['2'] then some (String.mk ('S' :: back))
        else some "UNKNOWN"
    else if code = ['2'] then
      -- Kepler Input Catalog
      some (String.mk ('K' :: rest))
    else if code = ['3'] ∨ code = ['4'] then
      -- 3: "DASCH", 4: APASS DR8
      if text.length ≠ 15 then some "MALFORMED-DASCH/APASS"
      else
        match strSplitAt 6 rest with
        | none => none
        | some (front6, back8) =>
          match strSplitAt 1 back8 with
          | none => none
          | some (tenth, back7) =>
            match strSplitAt 1 back7 with
            | none => none
            | some (sgn, back6) =>
              let pre := if code = ['3'] then "DASCH_J".data else "APASS_J".data
              if sgn.take 1 = ['1'] then
                some (String.mk (pre ++ front6 ++ ['.'] ++ tenth ++ ['+'] ++ back6))
              else if sgn.take 1 = ['2'] then
                some (String.mk (pre ++ front6 ++ ['.'] ++ tenth ++ ['-'] ++ back6))
              else some "MALFORMED-DASCH/APASS"
    else if code = ['5'] then
      -- Tycho 2
      some (String.mk ('T' :: rest))
    else if code = ['6'] then
      -- UCAC-4
      some (String.mk ('U' :: rest))
    else if code = ['7'] then some "UNHANDLED-GAIA1"
    else if code = ['8'] then some "UNHANDLED-GAIA2"
    else if code = ['9'] then
      -- ATLAS-refcat2
      some (String.mk ("ATLAS2_".data ++ rest))
    else some "UNKNOWN"

/-- `refnum_to_text` from `src/refnums.rs`.  A `none` result is a panic of the
Rust function. -/
def refnum_to_text (refnum : ℕ) : Option String :=
  if refnum = 0 then some "NONE"
  else refnumFromText (Nat.toDigits 10 refnum)

/-! ## RemoteRangeReader buffer selection (`src/s3buffer.rs`)

Only the fields consulted by the selection logic are modelled: the resident
byte count of `data` and `start_file_offset`.  Offsets and lengths are `ℕ`
(they are far from the `u64`/`usize` wrap in every reachable state). -/

structure BufferState where
  len : ℕ
  start_file_offset : ℕ
deriving DecidableEq

/-- `Buffer::empty_or_overlaps`: true when `data` is empty, else when
`offset + nbytes < start_file_offset + data.len()`. -/
def emptyOrOverlaps (b : BufferState) (offset nbytes : ℕ) : Bool :=
  if b.len = 0 then true
  else decide (offset + nbytes < b.start_file_offset + b.len)

inductive BufKind where
  | A
  | B
  | C
deriving DecidableEq

/-- The buffer-selection cascade at the top of `S3Buffer::read_into`. -/
def selectBuffer (a b c : BufferState) (offset nbytes : ℕ) : BufKind :=
  if emptyOrOverlaps a offset nbytes then BufKind.A
  else if emptyOrOverlaps b offset nbytes then BufKind.B
  else if emptyOrOverlaps c offset nbytes then BufKind.C
  else if offset < b.start_file_offset then BufKind.A
  else if offset < c.start_file_offset then BufKind.B
  else BufKind.C

/-- Modelled from the spec: the qualification test of the claim — the buffer "is
empty or [its] resident byte range `[start, start+len)` overlaps the requested
range `[offset, offset+n)`". -/
def claimQualifies (b : BufferState) (offset nbytes : ℕ) : Bool :=
  if b.len = 0 then true
  else decide (offset < b.start_file_offset + b.len ∧
    b.start_file_offset < offset + nbytes)

/-- Modelled from the spec: the selection rule of the claim — first of A, B, C that
qualifies per `claimQualifies`; otherwise the start-offset fallback. -/
def claimSelectBuffer (a b c : BufferState) (offset nbytes : ℕ) : BufKind :=
  if claimQualifies a offset nbytes then BufKind.A
  else if claimQualifies b offset nbytes then BufKind.B
  else if claimQualifies c offset nbytes then BufKind.C
  else if offset < b.start_file_offset then BufKind.A
  else if offset < c.start_file_offset then BufKind.B
  else BufKind.C

/-- The selection rule of the amended claim: a buffer qualifies when it is
empty or the requested range ends strictly before its resident end,
`offset + n < start + len`. -/
def amendedSelectBuffer (a b c : BufferState) (offset nbytes : ℕ) : BufKind :=
  if a.len = 0 ∨ offset + nbytes < a.start_file_offset + a.len then BufKind.A
  else if b.len = 0 ∨ offset + nbytes < b.start_file_offset + b.len then BufKind.B
  else if c.len = 0 ∨ offset + nbytes < c.start_file_offset + c.len then BufKind.C
  else if offset < b.start_file_offset then BufKind.A
  else if offset < c.start_file_offset then BufKind.B
  else BufKind.C

/-! ## QuerycatService RA search bands (`src/querycat.rs`)

The band computation consumes `f64::cos(min_dec * D2R)` and
`f64::cos(max_dec * D2R)`; those two transcendental values are inputs of the
embedding (`cosMin`, `cosMax`). -/

/-- The `(ra_bound_1, ra_bound_2)` computation of
`querycat::implementation`. -/
def raBounds (raDeg radiusArcsec cosMin cosMax : ℚ) : (ℚ × ℚ) × Option (ℚ × ℚ) :=
  let radiusDeg := radiusArcsec / 3600
  let cosDec := min cosMin cosMax
  if cosDec ≤ 0 then ((0, 360), none)
  else
    let searchRadiusRa := radiusDeg / cosDec
    let minRa := raDeg - searchRadiusRa
    let maxRa := raDeg + searchRadiusRa
    if minRa ≤ 0 ∧ maxRa ≥ 360 then ((0, 360), none)
    else if minRa < 0 then ((0, maxRa), some (minRa + 360, 360))
    else if maxRa > 360 then ((minRa, 360), some (0, maxRa - 360))
    else ((minRa, maxRa), none)

/-- Modelled from the spec: the case split of the claim for the RA search bands.
"If min(cos(min_dec), cos(max_dec)) ≤ 0 there is the single band [0, 360];
else with search_ra = radius_deg / cos_dec, if [ra − search_ra, ra +
search_ra] covers [0, 360] there is one band [0, 360]; if the low end is below
0 the two bands are [0, high] and [low+360, 360]; if the high end exceeds 360
the two bands are [low, 360] and [0, high−360]; otherwise the single band
[low, high]." -/
def claimRaBounds (raDeg radiusArcsec cosMin cosMax : ℚ) :
    (ℚ × ℚ) × Option (ℚ × ℚ) :=
  let radiusDeg := radiusArcsec / 3600
  if min cosMin cosMax ≤ 0 then ((0, 360), none)
  else
    let searchRa := radiusDeg / min cosMin cosMax
    let low := raDeg - searchRa
    let high := raDeg + searchRa
    if low ≤ 0 ∧ 360 ≤ high then ((0, 360), none)
    else if low < 0 then ((0, high), some (low + 360, 360))
    else if 360 < high then ((low, 360), some (0, high - 360))
    else ((low, high), none)

/-! ## QueryexpsService (`src/queryexps.rs`) -/

/-- The coverage-CSV object key built by `handle_queryexps`:
`format!("dasch-dr7-coverage-bins/test{}.csv", total_bin)` (the `test` infix
is in the source, marked with a `// !!!!!!!` comment). -/
def coverage_csv_key (total_bin : ℕ) : String :=
  "dasch-dr7-coverage-bins/test" ++ toString total_bin ++ ".csv"

/-- The coverage-CSV object key the claim describes:
`dasch-dr7-coverage-bins/{total_bin}.csv`. -/
def claim_coverage_csv_key (total_bin : ℕ) : String :=
  "dasch-dr7-coverage-bins/" ++ toString total_bin ++ ".csv"

/-- The key set submitted per `batch_get_item` round by the loop in
`handle_queryexps`: two hardcoded plate ids (under an `XXXXX TEMP` comment),
independent of the accumulated candidate map. -/
def queryexpsBatchKeys (candidates : List String) : List String :=
  match candidates with
  | _ => ["am25350", "b51503"]

/-- Number of `batch_get_item` rounds issued by the loop in
`handle_queryexps` as a function of the unprocessed-keys set returned by the
store: the loop body ends in an unconditional `break`, so exactly one round
happens regardless of the response. -/
def queryexpsBatchRounds (unprocessed : List String) : ℕ :=
  match unprocessed with
  | _ => 1

/-- Modelled from the spec: the solution-number translation helper
(`wcslib_solnum`, imported by `src/cutout.rs` from `crate::mosaics` but absent
from the sources) — "the core MUST translate: `wcs_index = n − 1 − sol_num`
before calling `get`"; out-of-range solution numbers are an error. -/
def wcslib_solnum (sol_num n_solutions : ℕ) : Option ℕ :=
  if sol_num < n_solutions then some (n_solutions - 1 - sol_num) else none

/-- `WcsCollection::get`: addresses the `solnum`-th per-solution slot of the
parsed collection (errors when out of range). -/
def wcsCollectionGet (nwcs slot : ℕ) : Option ℕ :=
  if slot < nwcs then some slot else none

/-- The internal WCS slot fetched by the cutout pipeline (`cutout.rs:195-199`):
`wcslib_solnum(request.solution_number, n_solutions)` followed by
`src_wcs.get(wsn)`. -/
def cutoutFetchedSlot (sol_num n_solutions : ℕ) : Option ℕ :=
  (wcslib_solnum sol_num n_solutions).bind (wcsCollectionGet n_solutions)

/-- The internal WCS slot used by `queryexps::process_one` (lines 418-429):
when `solexp.sol_num >= 0 && (sol_num as usize) < n_solutions` it uses the
parsed header handle directly (`this_wcs = Some(solved_wcs)`), i.e. the
head slot of the collection, slot 0 — with no translation and no `get` call. -/
def queryexpsUsedSlot (sol_num : ℤ) (n_solutions : ℕ) : Option ℕ :=
  if 0 ≤ sol_num ∧ sol_num.toNat < n_solutions then some 0 else none

/-! ## CutoutService flag/compact/scatter pipeline (`src/cutout.rs`)

The flattened destination buffers of the cutout pipeline
(`dp_flat`, `df_flat`, `decompress_indices`, `dest_data`) are length
`OUTPUT_IMAGE_NPIX`.  Flag and pixel arrays are modelled as functions `ℕ → ℤ`
(every write performed by the loops is at an index below the buffer length);
the sample coordinates after the delta-rotation remap are functions `ℕ → ℚ`.
The wcslib status flags `df0` and the interpolated prefix values `interp` are
arbitrary inputs. -/

def OUTPUT_IMAGE_HALFSIZE : ℕ := 417

def OUTPUT_IMAGE_FULLSIZE : ℕ := 2 * OUTPUT_IMAGE_HALFSIZE + 1

def OUTPUT_IMAGE_NPIX : ℕ := OUTPUT_IMAGE_FULLSIZE * OUTPUT_IMAGE_FULLSIZE

/-- The two `zip_mut_with` flagging passes over `df_flat`: a sample whose
remapped x falls outside `[0, w]` gets flag 1, then a sample whose remapped y
falls outside `[0, h]` gets flag 1; other samples keep the wcslib status
`df0`. -/
def flaggedFlat (df0 : ℕ → ℤ) (xs ys : ℕ → ℚ) (w h : ℚ) : ℕ → ℤ := fun i =>
  let fx := if xs i < 0 ∨ w < xs i then 1 else df0 i
  if ys i < 0 ∨ h < ys i then 1 else fx

/-- The `decompress_indices` prefix built by the compaction loop: the unflagged original
positions, in increasing order (`decompress[i] = original_position`). -/
def decompressIndices (npix : ℕ) (df : ℕ → ℤ) : List ℕ :=
  (List.range npix).filter (fun i => df i = 0)

/-- Point update of a buffer modelled as a function. -/
def updFn (d : ℕ → ℤ) (j : ℕ) (v : ℤ) : ℕ → ℤ := fun m => if m = j then v else d m

/-- One iteration of the reverse scatter loop at `filtered_index = fi`:
copy the filtered value out to its original position (when different), then
zero the cell at `fi` if the original sample at position `fi` was flagged. -/
def scatterStep (dci : List ℕ) (df : ℕ → ℤ) (d : ℕ → ℤ) (fi : ℕ) : ℕ → ℤ :=
  let full_index := dci.getD fi 0
  let d1 := if full_index ≠ fi then updFn d full_index (d fi) else d
  if df fi ≠ 0 then updFn d1 fi 0 else d1

/-- The scatter loop `for filtered_index in (0..k).rev()`: processes
`k-1, k-2, …, 0`. -/
def scatterAux (dci : List ℕ) (df : ℕ → ℤ) : ℕ → (ℕ → ℤ) → (ℕ → ℤ)
  | 0, d => d
  | k + 1, d => scatterAux dci df k (scatterStep dci df d k)

/-- `dest_data` before the scatter loop: `Array::zeros(OUTPUT_IMAGE_NPIX)`
with the first `n_filtered` cells overwritten by the interpolation output. -/
def cutoutDest0 (n_filtered : ℕ) (interp : ℕ → ℤ) : ℕ → ℤ := fun i =>
  if i < n_filtered then interp i else 0

/-- `dest_data` after the scatter loop, as a function of the wcslib flags, the
remapped sample coordinates, the mosaic bounds and the interpolated values. -/
def cutoutFinal (npix : ℕ) (df0 : ℕ → ℤ) (xs ys : ℕ → ℚ) (w h : ℚ)
    (interp : ℕ → ℤ) : ℕ → ℤ :=
  let df := flaggedFlat df0 xs ys w h
  let dci := decompressIndices npix df
  scatterAux dci df dci.length (cutoutDest0 dci.length interp)

/-- A small concrete binning for exercising the binning theorems on explicit
inputs: two 90-degree declination bands of four RA bins each. -/
def demoBinning : GscBinning :=
  { bin_size := 90, dec_bins := 2,
    master_index := [{ start_bin := 0, num_bins := 4 }, { start_bin := 4, num_bins := 4 }] }

/-! ## Theorems -/

/-- C5: `refnum_to_text` is claimed total, but the source panics on input 1:
with `text = "1"`, `rest` is empty and `rest.split_at(1)` is out of bounds.
The embedding returns `none` (= panic) there. -/
theorem c5_refnum_panics_on_one : refnum_to_text 1 = none := by decide

/-- C6 counterexample: the first scenario equality of the claim is false at
its own input: `refnum_to_text(120345)` dispatches on leading digits 1 then 2,
yielding the southern GSC form `S0345`, not `N20345`. -/
theorem c6_counterexample :
    refnum_to_text 120345 = some "S0345" ∧
    refnum_to_text 120345 ≠ some "N20345" := by decide

/-- C6 amended: `refnum_to_text(120345) = "S0345"`;
`refnum_to_text(311234567891234) = "MALFORMED-DASCH/APASS"` (its sign digit is
7, which is neither 1 nor 2); and every input whose decimal representation
begins with digit 7 yields `UNHANDLED-GAIA1`. -/
theorem c6_refnum_scenarios_amended :
    refnum_to_text 120345 = some "S0345" ∧
    refnum_to_text 311234567891234 = some "MALFORMED-DASCH/APASS" ∧
    ∀ n : ℕ, (Nat.toDigits 10 n).head? = some '7' →
      refnum_to_text n = some "UNHANDLED-GAIA1" := by
  refine ⟨by decide, by decide, ?_⟩
  intro n h
  cases hd : Nat.toDigits 10 n with
  | nil => rw [hd] at h; cases h
  | cons c cs =>
    rw [hd] at h
    have hc : c = '7' := by simpa using h
    subst hc
    have hn : n ≠ 0 := by
      intro h0
      subst h0
      rw [show Nat.toDigits 10 0 = ['0'] from rfl] at hd
      exact absurd (List.head_eq_of_cons_eq hd.symm) (by decide)
    rw [refnum_to_text, if_neg hn, hd]
    simp [refnumFromText, strSplitAt]

/-- C6 witness: the universally quantified part of the amended claim applied
at the concrete input 70000. -/
theorem c6_witness :
    (Nat.toDigits 10 70000).head? = some '7' ∧
    refnum_to_text 70000 = some "UNHANDLED-GAIA1" :=
  ⟨by decide, c6_refnum_scenarios_amended.2.2 70000 (by decide)⟩

/-- C1: the cutout path does translate the external solution number through
the helper (`wcslib_solnum` then `get`), but `queryexps::process_one` never
does: for `sol_num = 0` on a two-solution plate the helper yields internal
index 1 while `process_one` uses the parsed collection head, internal slot 0,
with no translation and no `get` call. -/
theorem c1_solnum_translation_divergence :
    cutoutFetchedSlot 0 2 = some 1 ∧
    wcslib_solnum 0 2 = some 1 ∧
    queryexpsUsedSlot 0 2 = some 0 ∧
    queryexpsUsedSlot 0 2 ≠ wcslib_solnum 0 2 := by decide

/-- C3: the batch-fetch loop of `handle_queryexps` requests two hardcoded
plate ids instead of the accumulated candidates, and performs exactly one
round even when the store reports a non-empty unprocessed-keys set. -/
theorem c3_batch_fetch_divergence :
    queryexpsBatchKeys ["x17"] = ["am25350", "b51503"] ∧
    queryexpsBatchKeys ["x17"] ≠ ["x17"] ∧
    queryexpsBatchRounds ["am25350"] = 1 := by decide

/-- C4: the coverage lookup key built by the source carries a `test` infix,
so it differs from the `dasch-dr7-coverage-bins/{total_bin}.csv` key the claim
describes, here at `total_bin = 12345`. -/
theorem c4_coverage_key_divergence :
    coverage_csv_key 12345 = "dasch-dr7-coverage-bins/test12345.csv" ∧
    claim_coverage_csv_key 12345 = "dasch-dr7-coverage-bins/12345.csv" ∧
    coverage_csv_key 12345 ≠ claim_coverage_csv_key 12345 := by decide

/-- C8 counterexample: with buffer A resident over bytes `[0, 10)`, buffers B
and C empty, and a request for bytes `[5, 15)`, the requested range overlaps
the resident range of A, so the claim selects A; the code tests
`offset + n < start + len` (15 < 10 fails) and selects the empty buffer B. -/
theorem c8_counterexample :
    selectBuffer ⟨10, 0⟩ ⟨0, 0⟩ ⟨0, 0⟩ 5 10 = BufKind.B ∧
    claimSelectBuffer ⟨10, 0⟩ ⟨0, 0⟩ ⟨0, 0⟩ 5 10 = BufKind.A ∧
    BufKind.B ≠ BufKind.A := by decide

/-- C8 amended: the buffer chosen by `S3Buffer::read_into` is the first of A,
B, C that is empty or whose resident extent ends strictly after the end of
the requested range (`offset + n < start + len`); if none qualifies, A when
`offset < B.start_file_offset`, else B when `offset < C.start_file_offset`,
else C. -/
theorem c8_buffer_selection_amended (a b c : BufferState) (offset nbytes : ℕ) :
    selectBuffer a b c offset nbytes = amendedSelectBuffer a b c offset nbytes := by
  simp only [selectBuffer, amendedSelectBuffer, emptyOrOverlaps]
  by_cases ha : a.len = 0 <;> by_cases hb : b.len = 0 <;> by_cases hc : c.len = 0 <;>
    simp [ha, hb, hc]

/-- C9: under the claimed request validity bounds, the RA search bands
computed by `querycat::implementation` agree exactly with the case split
stated in the claim. -/
theorem c9_ra_bands_match_claim (raDeg radiusArcsec cosMin cosMax : ℚ)
    (h1 : 0 ≤ raDeg) (h2 : raDeg ≤ 360)
    (h3 : 0 < radiusArcsec) (h4 : radiusArcsec < 3600) :
    raBounds raDeg radiusArcsec cosMin cosMax =
      claimRaBounds raDeg radiusArcsec cosMin cosMax := by
  simp only [raBounds, claimRaBounds, ge_iff_le, gt_iff_lt]

/-- C9 witness: the band agreement applied at the concrete request
`ra = 10`, `radius_arcsec = 60`, with cosine samples 1/2 and 1. -/
theorem c9_witness :
    raBounds 10 60 (1 / 2) 1 = claimRaBounds 10 60 (1 / 2) 1 :=
  c9_ra_bands_match_claim 10 60 (1 / 2) 1 (by norm_num) (by norm_num)
    (by norm_num) (by norm_num)

/-- C10: a NaN declination passes the `dec < -90. || dec > 90.` guard of
`get_dec_bin` (both comparisons are false on NaN), and the NaN then
propagates to the `as usize` cast, which yields 0: the south-pole band. -/
theorem c10_nan_dec_bin (b : GscBinning) (h : b.dec_bins ≠ 0) :
    b.get_dec_bin F.nan = some 0 := by
  simp [GscBinning.get_dec_bin, F.blt, F.add, F.div, F.toUsize, Ne.symm h]

/-- C10 witness: the NaN mapping applied to a concrete binning. -/
theorem c10_witness :
    demoBinning.dec_bins ≠ 0 ∧ demoBinning.get_dec_bin F.nan = some 0 :=
  ⟨by decide, c10_nan_dec_bin demoBinning (by decide)⟩

/-- Inversion of a successful `new_generic` construction: the running sum
matched the expected total and the binning is the built record. -/
theorem new_generic_inv {f : ℕ → ℕ} {bs : ℚ} {db total : ℕ} {b : GscBinning}
    (h : new_generic f bs db total = some b) :
    raSum f db = total ∧
      b = { bin_size := bs, dec_bins := db, master_index := buildMasterIndex f db } := by
  by_cases hs : raSum f db = total
  · refine ⟨hs, ?_⟩
    rw [new_generic, if_pos hs] at h
    exact ((Option.some.injEq _ _).mp h).symm
  · rw [new_generic, if_neg hs] at h
    cases h

/-- Entry `i` of the built master index. -/
theorem buildMasterIndex_getD (f : ℕ → ℕ) {db i : ℕ} (hi : i < db) (d : GscBinIndex) :
    (buildMasterIndex f db).getD i d = { start_bin := raSum f i, num_bins := f i } := by
  simp [buildMasterIndex, List.getD, hi]

/-- For a declination in `[-90, 90]`, `get_dec_bin` succeeds and lands in
`[0, dec_bins)`, provided the configuration satisfies
`dec_bins * bin_size = 180` (true of both production binnings) and `dec_bins`
fits in a `usize`. -/
theorem get_dec_bin_fin_lt (bs : ℚ) (db : ℕ) (mi : List GscBinIndex) (q : ℚ)
    (hq1 : -90 ≤ q) (hq2 : q ≤ 90) (hbs : (db : ℚ) * bs = 180) (hbspos : 0 < bs)
    (hdb : db < 2 ^ 64) :
    ∃ i, GscBinning.get_dec_bin ⟨bs, db, mi⟩ (F.fin q) = some i ∧ i < db := by
  have hbsne : bs ≠ 0 := ne_of_gt hbspos
  have hdbpos : 0 < db := by
    rcases Nat.eq_zero_or_pos db with h0 | h
    · rw [h0] at hbs
      norm_num at hbs
    · exact h
  have hv : (q + 90) / bs ≤ (db : ℚ) := by
    rw [div_le_iff hbspos, hbs]
    linarith
  have hfl : ⌊(q + 90) / bs⌋ ≤ (db : ℤ) := by
    have h1 := Int.floor_le_floor hv
    simpa using h1
  have hx : (⌊(q + 90) / bs⌋).toNat ≤ db := Int.toNat_le.mpr hfl
  have hx64 : (⌊(q + 90) / bs⌋).toNat ≤ 2 ^ 64 - 1 :=
    le_trans hx (Nat.le_sub_one_of_lt hdb)
  have hlt1 : ¬(q < -90) := not_lt.mpr hq1
  have hlt2 : ¬((90 : ℚ) < q) := not_lt.mpr hq2
  simp only [GscBinning.get_dec_bin, F.blt, F.add, F.div, F.toUsize, hlt1, hlt2,
    decide_eq_true_eq, if_neg hbsne, decide_False, Bool.or_self, Bool.false_eq_true,
    if_false]
  rw [min_eq_right hx64]
  by_cases he : (⌊(q + 90) / bs⌋).toNat = db
  · exact ⟨db - 1, by simp [he], Nat.sub_lt hdbpos one_pos⟩
  · exact ⟨(⌊(q + 90) / bs⌋).toNat, by simp [he], lt_of_le_of_ne hx he⟩

/-- For a declination bin in range and any finite RA, `get_total_bin` lands
strictly below the total bin count, provided every band has at least one RA
bin. -/
theorem get_total_bin_lt (f : ℕ → ℕ) (bs : ℚ) {db i : ℕ} (hi : i < db)
    (hpos : ∀ j, j < db → 1 ≤ f j) (r : ℚ) :
    GscBinning.get_total_bin ⟨bs, db, buildMasterIndex f db⟩ i (F.fin r) <
      raSum f db := by
  have hnum : 1 ≤ f i := hpos i hi
  have hfq : (0 : ℚ) < (f i : ℚ) := by exact_mod_cast Nat.lt_of_lt_of_le Nat.zero_lt_one hnum
  have hr0 : (0 : ℚ) ≤ r - 360 * ((⌊r / 360⌋ : ℤ) : ℚ) := by
    have h1 := Int.floor_le (r / 360)
    nlinarith
  have hr360 : r - 360 * ((⌊r / 360⌋ : ℤ) : ℚ) < 360 := by
    have h1 := Int.lt_floor_add_one (r / 360)
    nlinarith
  have hvlt : (r - 360 * ((⌊r / 360⌋ : ℤ) : ℚ)) * (f i : ℚ) / 360 < (f i : ℚ) := by
    rw [div_lt_iff (by norm_num : (0 : ℚ) < 360)]
    nlinarith
  have hfl : ⌊(r - 360 * ((⌊r / 360⌋ : ℤ) : ℚ)) * (f i : ℚ) / 360⌋ < ((f i : ℕ) : ℤ) := by
    rw [Int.floor_lt]
    exact_mod_cast hvlt
  have hxle : (⌊(r - 360 * ((⌊r / 360⌋ : ℤ) : ℚ)) * (f i : ℚ) / 360⌋).toNat ≤ f i - 1 := by
    omega
  have hsum : raSum f i + f i ≤ raSum f db := by
    have h1 : raSum f (i + 1) = raSum f i + f i := Finset.sum_range_succ f i
    have h2 : raSum f (i + 1) ≤ raSum f db :=
      Finset.sum_le_sum_of_subset (Finset.range_subset.mpr hi)
    omega
  simp only [GscBinning.get_total_bin, normRa, F.mul, F.div, F.toUsize,
    if_neg (show (360 : ℚ) ≠ 0 by norm_num)]
  rw [buildMasterIndex_getD f hi]
  dsimp only
  have hd1 : min (2 ^ 64 - 1)
      (⌊(r - 360 * ((⌊r / 360⌋ : ℤ) : ℚ)) * (f i : ℚ) / 360⌋).toNat ≤ f i - 1 :=
    le_trans (min_le_right _ _) hxle
  have hdlt : min (2 ^ 64 - 1)
      (⌊(r - 360 * ((⌊r / 360⌋ : ℤ) : ℚ)) * (f i : ℚ) / 360⌋).toNat < f i := by
    omega
  rw [if_neg (not_le.mpr hdlt)]
  omega

/-- C7: for any successfully constructed binning whose configuration covers
the declination range (`dec_bins * bin_size = 180`, as with `new64`), with at
least one RA bin per band, every declination in `[-90, 90]` yields a
declination bin in `[0, dec_bins)` and, for every finite RA, a total bin in
`[0, total)`. -/
theorem c7_total_bin_in_range (f : ℕ → ℕ) (bs : ℚ) (db total : ℕ) (b : GscBinning)
    (hb : new_generic f bs db total = some b)
    (hpos : ∀ j, j < db → 1 ≤ f j)
    (hbs : (db : ℚ) * bs = 180) (hbspos : 0 < bs) (hdb : db < 2 ^ 64)
    (q r : ℚ) (hq1 : -90 ≤ q) (hq2 : q ≤ 90) :
    ∃ i, b.get_dec_bin (F.fin q) = some i ∧ i < b.dec_bins ∧
      b.get_total_bin i (F.fin r) < total := by
  obtain ⟨hsum, hbeq⟩ := new_generic_inv hb
  subst hbeq
  obtain ⟨i, hgd, hilt⟩ := get_dec_bin_fin_lt bs db (buildMasterIndex f db) q hq1 hq2 hbs hbspos hdb
  exact ⟨i, hgd, hilt, hsum ▸ get_total_bin_lt f bs hilt hpos r⟩

/-- C7 witness: the range conclusion instantiated on a concrete two-band
binning at declination 0 and RA 45. -/
theorem c7_witness :
    ∃ i, demoBinning.get_dec_bin (F.fin 0) = some i ∧ i < demoBinning.dec_bins ∧
      demoBinning.get_total_bin i (F.fin 45) < 8 :=
  c7_total_bin_in_range (fun _ => 4) 90 2 8 demoBinning (by decide)
    (fun _ _ => by norm_num) (by norm_num) (by norm_num) (by norm_num)
    0 45 (by norm_num) (by norm_num)

/-- A defaulted in-bounds lookup is a member of the list. -/
theorem getD_mem_of_lt : ∀ (l : List ℕ) (fi : ℕ), fi < l.length → l.getD fi 0 ∈ l := by
  intro l
  induction l with
  | nil => intro fi h; simp at h
  | cons x xs ih =>
    intro fi h
    cases fi with
    | zero => simp [List.getD_cons_zero]
    | succ k =>
      have hk := ih k (by simpa using h)
      rw [List.getD_cons_succ]
      exact List.mem_cons_of_mem x hk

/-- Every position recorded by the compaction loop is unflagged. -/
theorem decompressIndices_flag {npix : ℕ} {df : ℕ → ℤ} {j : ℕ}
    (h : j ∈ decompressIndices npix df) : df j = 0 := by
  have h2 := (List.mem_filter.mp h).2
  simpa using h2

/-- Pointwise value of one scatter iteration: the zeroing write at `fi` wins
at `fi` (when flagged), the copy-out lands at `dci[fi]` (when distinct from
`fi`), and every other cell is untouched. -/
theorem scatterStep_apply (dci : List ℕ) (df d : ℕ → ℤ) (fi m : ℕ) :
    scatterStep dci df d fi m =
      if df fi ≠ 0 ∧ m = fi then 0
      else if dci.getD fi 0 ≠ fi ∧ m = dci.getD fi 0 then d fi
      else d m := by
  show (if df fi ≠ 0 then
          updFn (if dci.getD fi 0 ≠ fi then updFn d (dci.getD fi 0) (d fi) else d) fi 0
        else if dci.getD fi 0 ≠ fi then updFn d (dci.getD fi 0) (d fi) else d) m = _
  split_ifs <;> simp_all [updFn]

/-- A scatter iteration at `fi` does not touch the cell of a flagged position
`i ≠ fi`: its two writes go to the unflagged original position `dci[fi]` and
to `fi` itself. -/
theorem scatterStep_ne {dci : List ℕ} {df : ℕ → ℤ} {d : ℕ → ℤ} {fi i : ℕ}
    (hmem : ∀ j ∈ dci, df j = 0) (hflag : df i ≠ 0) (hfi : fi < dci.length)
    (hne : fi ≠ i) :
    scatterStep dci df d fi i = d i := by
  have hfull : dci.getD fi 0 ≠ i := by
    intro he
    exact hflag (he ▸ hmem _ (getD_mem_of_lt dci fi hfi))
  rw [scatterStep_apply]
  rw [if_neg (fun hc => hne hc.2.symm), if_neg (fun hc => hfull hc.2.symm)]

/-- The scatter loop over iterations `k-1, …, 0` preserves the cell of a
flagged position `i ≥ k`. -/
theorem scatterAux_preserve {dci : List ℕ} {df : ℕ → ℤ} {i : ℕ}
    (hmem : ∀ j ∈ dci, df j = 0) (hflag : df i ≠ 0) :
    ∀ k d, k ≤ dci.length → k ≤ i → scatterAux dci df k d i = d i := by
  intro k
  induction k with
  | zero => intro d _ _; rfl
  | succ k ih =>
    intro d hk1 hk2
    show scatterAux dci df k (scatterStep dci df d k) i = d i
    rw [ih _ (le_trans (Nat.le_succ k) hk1) (le_trans (Nat.le_succ k) hk2)]
    exact scatterStep_ne hmem hflag (lt_of_lt_of_le (Nat.lt_succ_self k) hk1)
      (by omega)

/-- The scatter iteration at a flagged position `fi = i` zeroes cell `i`:
the copy-out targets the (distinct, unflagged) original position `dci[i]`,
then the flag test writes 0 at `i`. -/
theorem scatterStep_self_zero {dci : List ℕ} {df : ℕ → ℤ} {d : ℕ → ℤ} {i : ℕ}
    (hmem : ∀ j ∈ dci, df j = 0) (hflag : df i ≠ 0) (hi : i < dci.length) :
    scatterStep dci df d i i = 0 := by
  rw [scatterStep_apply]
  rw [if_pos ⟨hflag, rfl⟩]

/-- After the scatter loop has processed iteration `i < k`, the cell of a
flagged position `i` is zero and stays zero. -/
theorem scatterAux_zero {dci : List ℕ} {df : ℕ → ℤ} {i : ℕ}
    (hmem : ∀ j ∈ dci, df j = 0) (hflag : df i ≠ 0) :
    ∀ k d, k ≤ dci.length → i < k → scatterAux dci df k d i = 0 := by
  intro k
  induction k with
  | zero => intro d _ h; omega
  | succ k ih =>
    intro d hk1 hik
    show scatterAux dci df k (scatterStep dci df d k) i = 0
    rcases Nat.lt_succ_iff_lt_or_eq.mp hik with h | h
    · exact ih _ (by omega) h
    · subst h
      rw [scatterAux_preserve hmem hflag i _ (by omega) le_rfl]
      exact scatterStep_self_zero hmem hflag (by omega)

/-- C2: in the cutout pipeline, every sample position that is flagged after
the out-of-bounds flagging step (wcslib status nonzero, or remapped x outside
`[0, w]`, or remapped y outside `[0, h]`) holds pixel value 0 in the final
835×835 output buffer, for all inputs reaching the scatter-back step. -/
theorem c2_flagged_pixels_zero (df0 : ℕ → ℤ) (xs ys : ℕ → ℚ) (w h : ℚ)
    (interp : ℕ → ℤ) (i : ℕ) (hi : i < OUTPUT_IMAGE_NPIX)
    (hflag : flaggedFlat df0 xs ys w h i ≠ 0) :
    cutoutFinal OUTPUT_IMAGE_NPIX df0 xs ys w h interp i = 0 := by
  have hmem : ∀ j ∈ decompressIndices OUTPUT_IMAGE_NPIX (flaggedFlat df0 xs ys w h),
      flaggedFlat df0 xs ys w h j = 0 := fun j hj => decompressIndices_flag hj
  show scatterAux (decompressIndices OUTPUT_IMAGE_NPIX (flaggedFlat df0 xs ys w h))
      (flaggedFlat df0 xs ys w h)
      (decompressIndices OUTPUT_IMAGE_NPIX (flaggedFlat df0 xs ys w h)).length
      (cutoutDest0
        (decompressIndices OUTPUT_IMAGE_NPIX (flaggedFlat df0 xs ys w h)).length
        interp) i = 0
  by_cases hlt : i < (decompressIndices OUTPUT_IMAGE_NPIX (flaggedFlat df0 xs ys w h)).length
  · exact scatterAux_zero hmem hflag _ _ le_rfl hlt
  · rw [scatterAux_preserve hmem hflag _ _ le_rfl (by omega)]
    simp [cutoutDest0, hlt]

/-- C2 witness: the zeroing conclusion at position 0 of a run in which the
wcslib transform flags every sample. -/
theorem c2_witness :
    (0 < OUTPUT_IMAGE_NPIX) ∧
      cutoutFinal OUTPUT_IMAGE_NPIX (fun _ => 1) (fun _ => 0) (fun _ => 0) 10 10
        (fun _ => 7) 0 = 0 :=
  ⟨by norm_num [OUTPUT_IMAGE_NPIX, OUTPUT_IMAGE_FULLSIZE, OUTPUT_IMAGE_HALFSIZE],
    c2_flagged_pixels_zero (fun _ => 1) (fun _ => 0) (fun _ => 0) 10 10
      (fun _ => 7) 0
      (by norm_num [OUTPUT_IMAGE_NPIX, OUTPUT_IMAGE_FULLSIZE, OUTPUT_IMAGE_HALFSIZE])
      (by norm_num [flaggedFlat])⟩
